import Mathlib

/-!
Verification of the Replibyte telemetry module
(`src/replibyte/src/telemetry.rs`).

The module builds a usage event from a command invocation plus the active
configuration and posts it, JSON-encoded, to an analytics collector.  The
shallow embedding below mirrors the Rust source:

* `HashMap<String, String>` is modelled as an association list together
  with `insertProp` (insert replaces any previous binding of the key) and
  `lookupProp`;
* `HashSet<&str>` is modelled by `hsInsert` / `collectTags` (first-seen
  order); since iteration order of a Rust `HashSet` is unspecified, every
  statement about the `transformer_<i>` loop is quantified over an
  arbitrary enumeration `tagOrder` that is a permutation of the set's
  elements;
* the blocking HTTP client is modelled as an explicit transport oracle
  `send : Json → Except String Response`; an `Except.error` is a
  transport-level failure (connection / timeout) carrying the cause
  message, an `Except.ok` is a completed request whose response carries
  an HTTP status that the source never inspects;
* `serde_json::to_string` is modelled structurally as `innerEventToJson`,
  producing a JSON tree with the exact field layout the `Serialize`
  derive produces; `NaiveDateTime` values are opaque to the module and
  are modelled as their rendered strings;
* `machine_uid::get()` is an external capability, passed in as an
  `Except String String` argument;
* `Utc::now().naive_utc()` is passed in as the `now` argument.
-/

namespace Telemetry

/-- Connection URI variants, from the exhaustive match in
`capture_command` (lines 83–85 of the source); the payload fields are
never inspected by the telemetry module and are modelled as strings. -/
inductive ConnectionUri where
  | Postgres (a b c d e : String)
  | Mysql (a b c d e : String)
  | MongoDB (a b c d e f : String)
  deriving DecidableEq, Repr

/-- Transformer kind variants, from the exhaustive match in
`capture_command` (lines 112–121 of the source).  `Redacted` and
`CustomWasm` carry options that the telemetry module never inspects. -/
inductive TransformerTypeConfig where
  | Random
  | RandomDate
  | FirstName
  | Email
  | KeepFirstChar
  | PhoneNumber
  | CreditCard
  | Redacted (options : String)
  | Transient
  | CustomWasm (options : String)
  deriving DecidableEq, Repr

/-- A column entry of a transformer block: only the `transformer` field is
read by the telemetry module. -/
structure ColumnConfig where
  transformer : TransformerTypeConfig
  deriving DecidableEq, Repr

/-- A transformer block of the source configuration: only `columns` is
read by the telemetry module. -/
structure TransformerConfig where
  columns : List ColumnConfig
  deriving DecidableEq, Repr

deriving instance DecidableEq for Except

/-- The fields of the data-source configuration read by
`capture_command`.  `connection_uri` holds the result of the fallible
`connection_uri()` accessor (defined outside this module), so a malformed
connection string appears as `Except.error`. -/
structure SourceConfig where
  connection_uri : Except String ConnectionUri
  compression : Option Bool
  encryption_key : Option String
  skip : Option (List String)
  database_subset : Option String
  transformers : List TransformerConfig
  deriving DecidableEq, Repr

/-- The slice of `Config` read by `capture_command`. -/
structure Config where
  source : Option SourceConfig
  deriving DecidableEq, Repr

/-- Backup sub-commands, from the match at lines 134–137. -/
inductive BackupCommand where
  | List
  | Run (args : String)
  deriving DecidableEq, Repr

/-- Transformer sub-commands, from the match at lines 138–140. -/
inductive TransformerCommand where
  | List
  deriving DecidableEq, Repr

/-- Restore sub-commands, from the match at lines 141–144. -/
inductive RestoreCommand where
  | Local (args : String)
  | Remote (args : String)
  deriving DecidableEq, Repr

/-- Top-level sub-commands, from the match at lines 133–145. -/
inductive SubCommand where
  | Backup (cmd : BackupCommand)
  | Transformer (cmd : TransformerCommand)
  | Restore (cmd : RestoreCommand)
  deriving DecidableEq, Repr

/-- `Properties`: the payload attached to an event.  The Rust
`HashMap<String, String>` is modelled as an association list whose keys
are kept unique by `insertProp`. -/
structure Properties where
  distinct_id : String
  props : List (String × String)
  deriving DecidableEq, Repr

/-- `Event`: one reportable occurrence.  `NaiveDateTime` is opaque to the
module and modelled as its rendered string. -/
structure Event where
  event : String
  properties : Properties
  timestamp : Option String
  deriving DecidableEq, Repr

/-- `InnerEvent`: the wire form, i.e. the event plus the injected
`api_key` (source lines 159–165). -/
structure InnerEvent where
  api_key : String
  event : String
  properties : Properties
  timestamp : Option String
  deriving DecidableEq, Repr

/-- `InnerEvent::new` (source lines 167–176). -/
def InnerEvent.new (e : Event) (api_key : String) : InnerEvent :=
  { api_key := api_key
    event := e.event
    properties := e.properties
    timestamp := e.timestamp }

/-- `HashMap::insert`: bind `k` to `v`, replacing any previous binding of
`k`.  Keys stay unique; order of entries is irrelevant (only `lookupProp`
is observed). -/
def insertProp (m : List (String × String)) (k v : String) : List (String × String) :=
  (k, v) :: m.filter (fun p => p.1 ≠ k)

/-- `HashMap::get`-style lookup in the association list. -/
def lookupProp : List (String × String) → String → Option String
  | [], _ => none
  | (k, v) :: rest, k' => if k = k' then some v else lookupProp rest k'

/-- The keys of a property map. -/
def propKeys (m : List (String × String)) : List String :=
  m.map Prod.fst

/-- `bool::to_string()` in Rust. -/
def boolString (b : Bool) : String :=
  if b then "true" else "false"

/-- Decimal digit to character, used to embed Rust's integer
formatting. -/
def digitCharOf (d : Nat) : Char :=
  match d with
  | 0 => '0' | 1 => '1' | 2 => '2' | 3 => '3' | 4 => '4'
  | 5 => '5' | 6 => '6' | 7 => '7' | 8 => '8' | 9 => '9'
  | _ => '*'

/-- Decimal rendering of a natural number, embedding `format!("{}", n)`
for a `usize`. -/
def natToString (n : Nat) : String :=
  if n = 0 then "0" else ⟨((Nat.digits 10 n).map digitCharOf).reverse⟩

/-- Inverse reading of a decimal string, used only to prove that
`natToString` is injective. -/
def decodeNat (s : String) : Nat :=
  s.data.foldl (fun a c => a * 10 + (c.toNat - 48)) 0

/-- The key `format!("transformer_{}", idx)` of source line 127. -/
def transformerKey (idx : Nat) : String :=
  "transformer_" ++ natToString idx

/-- The `database` classification of `capture_command`
(source lines 82–87): the match from a resolved connection URI to the
database name recorded in the event. -/
def databaseName : ConnectionUri → String
  | .Postgres _ _ _ _ _ => "postgresql"
  | .Mysql _ _ _ _ _ => "mysql"
  | .MongoDB _ _ _ _ _ _ => "mongodb"

/-- The transformer tag of source lines 112–121: one tag per variant,
parameterized variants collapse to their base tag. -/
def tagOf : TransformerTypeConfig → String
  | .Random => "random"
  | .RandomDate => "random-date"
  | .FirstName => "first-name"
  | .Email => "email"
  | .KeepFirstChar => "keep-first-char"
  | .PhoneNumber => "phone-number"
  | .CreditCard => "credit-card"
  | .Redacted _ => "redacted"
  | .Transient => "transient"
  | .CustomWasm _ => "custom-wasm"

/-- `HashSet::insert` observed through first-seen enumeration order: the
element is appended only when absent. -/
def hsInsert (s : List String) (t : String) : List String :=
  if t ∈ s then s else s ++ [t]

/-- The contents of the `transformers` `HashSet` after the double loop of
source lines 107–124, in first-seen order. -/
def collectTags (x : SourceConfig) : List String :=
  x.transformers.foldl
    (fun s t => t.columns.foldl (fun s' c => hsInsert s' (tagOf c.transformer)) s)
    []

/-- One step of the `transformer_<i>` insertion loop of source
lines 126–128. -/
def addTagProp (p : List (String × String)) (it : Nat × String) : List (String × String) :=
  insertProp p (transformerKey it.1) it.2

/-- The property map of `capture_command` right before the
`transformer_<i>` loop, when a data source with a resolved connection URI
is present (source lines 75–105): the five scalar inserts after the
`args` insert. -/
def sourceProps (x : SourceConfig) (uri : ConnectionUri) (args : List String) :
    List (String × String) :=
  insertProp
    (insertProp
      (insertProp
        (insertProp
          (insertProp
            (insertProp [] "args" (String.intercalate " " args))
            "database" (databaseName uri))
          "compression_used" (boolString (x.compression.getD true)))
        "encryption_used" (boolString x.encryption_key.isSome))
      "skip_tables_used" (boolString x.skip.isSome))
    "subset_used" (boolString x.database_subset.isSome)

/-- The property map built by `capture_command` (source lines 75–131).
`tagOrder` is the enumeration order in which the `HashSet` of tags is
iterated; theorems about it assume only that it is a permutation of
`collectTags x`, since `HashSet` iteration order is unspecified. -/
def buildProps (config : Config) (args : List String) (tagOrder : List String) :
    Except String (List (String × String)) :=
  match config.source with
  | none => .ok (insertProp [] "args" (String.intercalate " " args))
  | some x =>
    match x.connection_uri with
    | .error e => .error e
    | .ok uri => .ok ((tagOrder.enum).foldl addTagProp (sourceProps x uri args))

/-- The event name lookup of source lines 133–145. -/
def eventNameOf : SubCommand → String
  | .Backup .List => "backup-list"
  | .Backup (.Run _) => "backup-run"
  | .Transformer .List => "transformer-list"
  | .Restore (.Local _) => "restore-local"
  | .Restore (.Remote _) => "restore-remote"

/-- The event constructed by `capture_command` (source lines 133–154).
`machine_uid` is the result of the external `machine_uid::get()` call and
`now` the rendered `Utc::now().naive_utc()` instant. -/
def buildEvent (config : Config) (sub_command : SubCommand) (args : List String)
    (machine_uid : Except String String) (now : String) (tagOrder : List String) :
    Except String Event :=
  match buildProps config args tagOrder with
  | .error e => .error e
  | .ok props =>
    .ok { event := eventNameOf sub_command
          properties :=
            { distinct_id := match machine_uid with | .ok i => i | .error _ => "unknown"
              props := props }
          timestamp := some now }

/-- JSON values, as far as the serialized payload needs them. -/
inductive Json where
  | str (s : String)
  | obj (fields : List (String × Json))
  | null

/-- Serialization of the `props` map: a JSON object with one string field
per entry. -/
def propsToJson (props : List (String × String)) : Json :=
  .obj (props.map (fun p => (p.1, Json.str p.2)))

/-- Serialization of `Properties`, matching the `Serialize` derive:
fields in declaration order. -/
def propertiesToJson (p : Properties) : Json :=
  .obj [("distinct_id", .str p.distinct_id), ("props", propsToJson p.props)]

/-- Serialization of `InnerEvent` — the embedding of
`serde_json::to_string(&inner_event)` at the JSON-tree level: fields in
declaration order, an absent timestamp becoming `null`. -/
def innerEventToJson (e : InnerEvent) : Json :=
  .obj [("api_key", .str e.api_key),
        ("event", .str e.event),
        ("properties", propertiesToJson e.properties),
        ("timestamp", match e.timestamp with | some t => .str t | none => .null)]

/-- Field lookup in a JSON object body (first match). -/
def jsonField : List (String × Json) → String → Option Json
  | [], _ => none
  | (k, v) :: rest, k' => if k = k' then some v else jsonField rest k'

/-- Parse one `props` entry back from JSON. -/
def parsePropEntry : String × Json → Option (String × String)
  | (k, .str v) => some (k, v)
  | _ => none

/-- Parse a list of object fields back into string entries, failing on
the first non-string value. -/
def parsePropFields : List (String × Json) → Option (List (String × String))
  | [] => some []
  | f :: rest =>
    match parsePropEntry f, parsePropFields rest with
    | some e, some es => some (e :: es)
    | _, _ => none

/-- Parse the `props` object back into the string map. -/
def parseProps : Json → Option (List (String × String))
  | .obj fields => parsePropFields fields
  | _ => none

/-- Parse `Properties` back from JSON. -/
def parseProperties (j : Json) : Option Properties :=
  match j with
  | .obj fields =>
    match jsonField fields "distinct_id", jsonField fields "props" with
    | some (.str d), some pj =>
      match parseProps pj with
      | some ps => some { distinct_id := d, props := ps }
      | none => none
    | _, _ => none
  | _ => none

/-- Parse the whole wire payload back: yields the api key and the
recovered `Event`. -/
def parseInnerEvent (j : Json) : Option (String × Event) :=
  match j with
  | .obj fields =>
    match jsonField fields "api_key", jsonField fields "event",
          jsonField fields "properties", jsonField fields "timestamp" with
    | some (.str key), some (.str name), some pj, some tj =>
      match parseProperties pj with
      | some props =>
        match tj with
        | .str t => some (key, { event := name, properties := props, timestamp := some t })
        | .null => some (key, { event := name, properties := props, timestamp := none })
        | _ => none
      | none => none
    | _, _, _, _ => none
  | _ => none

/-- The collector's HTTP response at the level the source observes it: a
status code and a body, both discarded by `capture`. -/
structure Response where
  status : Nat
  body : String
  deriving DecidableEq, Repr

/-- A transport oracle: the behaviour of `self.client.post(..).send()` on
a given serialized payload.  `Except.error msg` is a transport-level
failure (connection, timeout) with cause message `msg`; `Except.ok r` is
a completed request with response `r` of any HTTP status. -/
def Transport : Type := Json → Except String Response

/-- `TelemetryClient::capture` (source lines 49–59): wrap the event with
the api key, serialize, POST, map a transport error to an error carrying
the cause message, and discard the response otherwise.  Serialization of
`InnerEvent` is total (every field serializes infallibly), so the
`expect` on source line 55 never fires. -/
def capture (send : Transport) (api_key : String) (event : Event) : Except String Unit :=
  let inner_event := InnerEvent.new event api_key
  match send (innerEventToJson inner_event) with
  | .error e => .error e
  | .ok _ => .ok ()

/-- `TelemetryClient::capture_batch` (source lines 61–66): send each
event in order, propagating the first failure. -/
def capture_batch (send : Transport) (api_key : String) : List Event → Except String Unit
  | [] => .ok ()
  | e :: rest =>
    match capture send api_key e with
    | .error err => .error err
    | .ok _ => capture_batch send api_key rest

/-- Instrumented form of `capture_batch`: additionally returns the list
of events for which a `capture` call was issued, in order.  Related to
`capture_batch` by `capture_batch_eq_trace`. -/
def capture_batch_trace (send : Transport) (api_key : String) :
    List Event → List Event × Except String Unit
  | [] => ([], .ok ())
  | e :: rest =>
    match capture send api_key e with
    | .error err => ([e], .error err)
    | .ok _ =>
      let r := capture_batch_trace send api_key rest
      (e :: r.1, r.2)

/-- `TelemetryClient::capture_command` (source lines 68–156): build the
event from the configuration and sub-command, then `capture` it.  The
`execution_time_in_millis` argument is accepted but unused, as in the
source. -/
def capture_command (send : Transport) (api_key : String)
    (machine_uid : Except String String) (now : String)
    (config : Config) (sub_command : SubCommand) (args : List String)
    (execution_time_in_millis : Option Nat) (tagOrder : List String) :
    Except String Unit :=
  match buildEvent config sub_command args machine_uid now tagOrder with
  | .error e => .error e
  | .ok ev => capture send api_key ev

/-! ## Association-list lemmas -/

theorem lookupProp_filter_ne (m : List (String × String)) (k k' : String) (h : k' ≠ k) :
    lookupProp (m.filter (fun p => p.1 ≠ k)) k' = lookupProp m k' := by
  induction m with
  | nil => rfl
  | cons p rest ih =>
    obtain ⟨a, b⟩ := p
    rw [List.filter_cons]
    by_cases hak : a = k
    · have h1 : (decide ((a, b).1 ≠ k)) = false := by simp [hak]
      rw [h1]
      simp only [Bool.false_eq_true, if_false]
      rw [ih]
      have hk' : a ≠ k' := by rw [hak]; exact fun he => h he.symm
      simp [lookupProp, hk']
    · have h1 : (decide ((a, b).1 ≠ k)) = true := by simp [hak]
      rw [h1]
      simp only [if_true]
      simp only [lookupProp]
      by_cases hak' : a = k'
      · rw [if_pos hak', if_pos hak']
      · rw [if_neg hak', if_neg hak']
        exact ih

theorem lookupProp_insert_self (m : List (String × String)) (k v : String) :
    lookupProp (insertProp m k v) k = some v := by
  simp [insertProp, lookupProp]

theorem lookupProp_insert_ne (m : List (String × String)) (k v k' : String) (h : k' ≠ k) :
    lookupProp (insertProp m k v) k' = lookupProp m k' := by
  have hk : k ≠ k' := fun he => h he.symm
  simp only [insertProp, lookupProp, hk, if_false]
  exact lookupProp_filter_ne m k k' h

/-! ## Decimal rendering: `natToString` is injective -/

theorem digitCharOf_toNat (d : Nat) (h : d < 10) : (digitCharOf d).toNat - 48 = d := by
  interval_cases d <;> rfl

theorem foldl_decode (ds : List Nat) (hd : ∀ d ∈ ds, d < 10) (acc : Nat) :
    List.foldl (fun a c => a * 10 + (c.toNat - 48)) acc ((ds.map digitCharOf).reverse)
      = acc * 10 ^ ds.length + Nat.ofDigits 10 ds := by
  induction ds generalizing acc with
  | nil => simp [Nat.ofDigits_nil]
  | cons d tl ih =>
    have hdd : d < 10 := hd d (by simp)
    have htl : ∀ x ∈ tl, x < 10 := fun x hx => hd x (by simp [hx])
    simp only [List.map_cons, List.reverse_cons, List.foldl_append, List.foldl_cons,
      List.foldl_nil]
    rw [ih htl acc, digitCharOf_toNat d hdd, Nat.ofDigits_cons]
    simp only [List.length_cons, pow_succ]
    ring

theorem decode_natToString (n : Nat) : decodeNat (natToString n) = n := by
  by_cases h : n = 0
  · subst h; rfl
  · have hlt : ∀ d ∈ Nat.digits 10 n, d < 10 := fun d hdm =>
      Nat.digits_lt_base (by norm_num) hdm
    simp only [natToString, h, if_false, decodeNat]
    rw [foldl_decode _ hlt 0, Nat.ofDigits_digits]
    simp

theorem natToString_injective (a b : Nat) (h : natToString a = natToString b) : a = b := by
  have := congrArg decodeNat h
  rwa [decode_natToString, decode_natToString] at this

theorem string_data_inj (a b : String) (h : a.data = b.data) : a = b := by
  cases a with
  | mk da =>
    cases b with
    | mk db => exact congrArg String.mk (by simpa using h)

theorem transformerKey_injective (i j : Nat) (h : transformerKey i = transformerKey j) :
    i = j := by
  have hdata := congrArg String.data h
  rw [transformerKey, transformerKey, String.data_append, String.data_append] at hdata
  have := List.append_cancel_left hdata
  exact natToString_injective i j (string_data_inj _ _ this)

theorem transformerKey_head (i : Nat) : (transformerKey i).data.head? = some 't' := by
  rw [transformerKey, String.data_append]; rfl

theorem transformerKey_ne (i : Nat) (k : String) (h : k.data.head? ≠ some 't') :
    transformerKey i ≠ k := by
  intro he
  exact h (he ▸ transformerKey_head i)

/-! ## The transformer-index loop -/

theorem enumFrom_fst_le (l : List String) :
    ∀ (n : Nat) (it : Nat × String), it ∈ List.enumFrom n l → n ≤ it.1 := by
  induction l with
  | nil => intro n it h; simp [List.enumFrom] at h
  | cons t ts ih =>
    intro n it h
    rw [show List.enumFrom n (t :: ts) = (n, t) :: List.enumFrom (n + 1) ts from rfl] at h
    rcases List.mem_cons.mp h with h | h
    · rw [h]
    · exact Nat.le_of_succ_le (ih (n + 1) it h)

theorem lookup_fold_addTagProp_ne (ps : List (Nat × String)) :
    ∀ (p : List (String × String)) (k : String),
      (∀ it ∈ ps, transformerKey it.1 ≠ k) →
      lookupProp (ps.foldl addTagProp p) k = lookupProp p k := by
  induction ps with
  | nil => intro p k _; rfl
  | cons it rest ih =>
    intro p k h
    rw [List.foldl_cons]
    rw [ih (addTagProp p it) k (fun x hx => h x (List.mem_cons_of_mem it hx))]
    exact lookupProp_insert_ne p (transformerKey it.1) it.2 k
      (Ne.symm (h it (List.mem_cons_self it rest)))

theorem lookup_fold_enumFrom (l : List String) :
    ∀ (n j : Nat) (p : List (String × String)),
      lookupProp ((List.enumFrom n l).foldl addTagProp p) (transformerKey (n + j)) =
        match l.get? j with
        | some t => some t
        | none => lookupProp p (transformerKey (n + j)) := by
  induction l with
  | nil => intro n j p; rfl
  | cons t ts ih =>
    intro n j p
    have hstep : List.enumFrom n (t :: ts) = (n, t) :: List.enumFrom (n + 1) ts := rfl
    rw [hstep, List.foldl_cons]
    cases j with
    | zero =>
      have hne : ∀ it ∈ List.enumFrom (n + 1) ts, transformerKey it.1 ≠ transformerKey (n + 0) := by
        intro it hit he
        have h1 : n + 1 ≤ it.1 := enumFrom_fst_le ts (n + 1) it hit
        have h2 : it.1 = n + 0 := transformerKey_injective _ _ he
        omega
      rw [lookup_fold_addTagProp_ne _ _ _ hne]
      show lookupProp (insertProp p (transformerKey n) t) (transformerKey (n + 0)) = _
      rw [Nat.add_zero]
      rw [lookupProp_insert_self]
      rfl
    | succ j' =>
      have harith : n + (j' + 1) = (n + 1) + j' := by omega
      rw [harith]
      have hget : (t :: ts).get? (j' + 1) = ts.get? j' := rfl
      rw [hget]
      rw [ih (n + 1) j' (addTagProp p (n, t))]
      cases hg : ts.get? j' with
      | some t' => rfl
      | none =>
        show lookupProp (insertProp p (transformerKey n) t) (transformerKey (n + 1 + j')) = _
        rw [lookupProp_insert_ne]
        intro he
        have := transformerKey_injective _ _ he
        omega

/-! ## Lookups in the pre-transformer property map -/

theorem lookup_sourceProps_args (x : SourceConfig) (uri : ConnectionUri) (args : List String) :
    lookupProp (sourceProps x uri args) "args" = some (String.intercalate " " args) := by
  rw [sourceProps]
  rw [lookupProp_insert_ne _ _ _ _ (by decide)]
  rw [lookupProp_insert_ne _ _ _ _ (by decide)]
  rw [lookupProp_insert_ne _ _ _ _ (by decide)]
  rw [lookupProp_insert_ne _ _ _ _ (by decide)]
  rw [lookupProp_insert_ne _ _ _ _ (by decide)]
  exact lookupProp_insert_self _ _ _

theorem lookup_sourceProps_database (x : SourceConfig) (uri : ConnectionUri) (args : List String) :
    lookupProp (sourceProps x uri args) "database" = some (databaseName uri) := by
  rw [sourceProps]
  rw [lookupProp_insert_ne _ _ _ _ (by decide)]
  rw [lookupProp_insert_ne _ _ _ _ (by decide)]
  rw [lookupProp_insert_ne _ _ _ _ (by decide)]
  rw [lookupProp_insert_ne _ _ _ _ (by decide)]
  exact lookupProp_insert_self _ _ _

theorem lookup_sourceProps_compression (x : SourceConfig) (uri : ConnectionUri)
    (args : List String) :
    lookupProp (sourceProps x uri args) "compression_used"
      = some (boolString (x.compression.getD true)) := by
  rw [sourceProps]
  rw [lookupProp_insert_ne _ _ _ _ (by decide)]
  rw [lookupProp_insert_ne _ _ _ _ (by decide)]
  rw [lookupProp_insert_ne _ _ _ _ (by decide)]
  exact lookupProp_insert_self _ _ _

theorem lookup_sourceProps_encryption (x : SourceConfig) (uri : ConnectionUri)
    (args : List String) :
    lookupProp (sourceProps x uri args) "encryption_used"
      = some (boolString x.encryption_key.isSome) := by
  rw [sourceProps]
  rw [lookupProp_insert_ne _ _ _ _ (by decide)]
  rw [lookupProp_insert_ne _ _ _ _ (by decide)]
  exact lookupProp_insert_self _ _ _

theorem lookup_sourceProps_skip (x : SourceConfig) (uri : ConnectionUri) (args : List String) :
    lookupProp (sourceProps x uri args) "skip_tables_used"
      = some (boolString x.skip.isSome) := by
  rw [sourceProps]
  rw [lookupProp_insert_ne _ _ _ _ (by decide)]
  exact lookupProp_insert_self _ _ _

theorem lookup_sourceProps_subset (x : SourceConfig) (uri : ConnectionUri) (args : List String) :
    lookupProp (sourceProps x uri args) "subset_used"
      = some (boolString x.database_subset.isSome) := by
  rw [sourceProps]
  exact lookupProp_insert_self _ _ _

theorem lookup_sourceProps_transformerKey (x : SourceConfig) (uri : ConnectionUri)
    (args : List String) (j : Nat) :
    lookupProp (sourceProps x uri args) (transformerKey j) = none := by
  rw [sourceProps]
  rw [lookupProp_insert_ne _ _ _ _ (transformerKey_ne j _ (by decide))]
  rw [lookupProp_insert_ne _ _ _ _ (transformerKey_ne j _ (by decide))]
  rw [lookupProp_insert_ne _ _ _ _ (transformerKey_ne j _ (by decide))]
  rw [lookupProp_insert_ne _ _ _ _ (transformerKey_ne j _ (by decide))]
  rw [lookupProp_insert_ne _ _ _ _ (transformerKey_ne j _ (by decide))]
  rw [lookupProp_insert_ne _ _ _ _ (transformerKey_ne j _ (by decide))]
  rfl

/-! ## The tag set -/

theorem mem_hsInsert (s : List String) (t a : String) :
    a ∈ hsInsert s t ↔ a ∈ s ∨ a = t := by
  by_cases h : t ∈ s
  · simp only [hsInsert, h, if_true]
    constructor
    · exact fun ha => Or.inl ha
    · rintro (ha | ha)
      · exact ha
      · rw [ha]; exact h
  · simp [hsInsert, h]

theorem nodup_hsInsert (s : List String) (t : String) (h : s.Nodup) : (hsInsert s t).Nodup := by
  by_cases ht : t ∈ s
  · simpa [hsInsert, ht] using h
  · simp only [hsInsert, ht, if_false]
    rw [List.nodup_append]
    refine ⟨h, List.nodup_singleton t, ?_⟩
    intro a ha hat
    rw [List.mem_singleton] at hat
    exact ht (hat ▸ ha)

theorem mem_foldl_hsInsert {α : Type} (f : α → String) (l : List α) :
    ∀ (s : List String) (a : String),
      (a ∈ l.foldl (fun s' c => hsInsert s' (f c)) s ↔ a ∈ s ∨ ∃ c ∈ l, a = f c) := by
  induction l with
  | nil => intro s a; simp
  | cons c cs ih =>
    intro s a
    rw [List.foldl_cons, ih (hsInsert s (f c)) a, mem_hsInsert]
    constructor
    · rintro ((h | h) | ⟨c', hc', he⟩)
      · exact Or.inl h
      · exact Or.inr ⟨c, List.mem_cons_self c cs, h⟩
      · exact Or.inr ⟨c', List.mem_cons_of_mem c hc', he⟩
    · rintro (h | ⟨c', hc', he⟩)
      · exact Or.inl (Or.inl h)
      · rcases List.mem_cons.mp hc' with hc'' | hc''
        · exact Or.inl (Or.inr (hc'' ▸ he))
        · exact Or.inr ⟨c', hc'', he⟩

theorem nodup_foldl_hsInsert {α : Type} (f : α → String) (l : List α) :
    ∀ (s : List String), s.Nodup → (l.foldl (fun s' c => hsInsert s' (f c)) s).Nodup := by
  induction l with
  | nil => intro s h; exact h
  | cons c cs ih =>
    intro s h
    rw [List.foldl_cons]
    exact ih (hsInsert s (f c)) (nodup_hsInsert s (f c) h)

theorem mem_collectTags (x : SourceConfig) (a : String) :
    a ∈ collectTags x ↔
      ∃ t ∈ x.transformers, ∃ c ∈ t.columns, a = tagOf c.transformer := by
  rw [collectTags]
  have aux : ∀ (ts : List TransformerConfig) (s : List String),
      (a ∈ ts.foldl
          (fun s t => t.columns.foldl (fun s' c => hsInsert s' (tagOf c.transformer)) s) s ↔
        a ∈ s ∨ ∃ t ∈ ts, ∃ c ∈ t.columns, a = tagOf c.transformer) := by
    intro ts
    induction ts with
    | nil => intro s; simp
    | cons t rest ih =>
      intro s
      rw [List.foldl_cons, ih, mem_foldl_hsInsert (fun c => tagOf c.transformer) t.columns]
      constructor
      · rintro ((h | ⟨c, hc, he⟩) | ⟨t', ht', hc⟩)
        · exact Or.inl h
        · exact Or.inr ⟨t, List.mem_cons_self t rest, c, hc, he⟩
        · exact Or.inr ⟨t', List.mem_cons_of_mem t ht', hc⟩
      · rintro (h | ⟨t', ht', c, hc, he⟩)
        · exact Or.inl (Or.inl h)
        · rcases List.mem_cons.mp ht' with ht'' | ht''
          · exact Or.inl (Or.inr ⟨c, ht'' ▸ hc, he⟩)
          · exact Or.inr ⟨t', ht'', c, hc, he⟩
  rw [aux x.transformers []]
  simp

theorem nodup_collectTags (x : SourceConfig) : (collectTags x).Nodup := by
  rw [collectTags]
  have aux : ∀ (ts : List TransformerConfig) (s : List String), s.Nodup →
      (ts.foldl
        (fun s t => t.columns.foldl (fun s' c => hsInsert s' (tagOf c.transformer)) s) s).Nodup := by
    intro ts
    induction ts with
    | nil => intro s h; exact h
    | cons t rest ih =>
      intro s h
      rw [List.foldl_cons]
      exact ih _ (nodup_foldl_hsInsert (fun c => tagOf c.transformer) t.columns s h)
  exact aux x.transformers [] List.nodup_nil

/-! ## Recovering a list from indexed lookups -/

theorem filterMap_get_range {α : Type} (l : List α) :
    (List.range l.length).filterMap l.get? = l := by
  induction l with
  | nil => rfl
  | cons a tl ih =>
    rw [List.length_cons, List.range_succ_eq_map, List.filterMap_cons]
    have h0 : (a :: tl).get? 0 = some a := rfl
    rw [h0, List.filterMap_map]
    have hcomp : ((a :: tl).get? ∘ Nat.succ) = tl.get? := by
      funext i; rfl
    rw [hcomp, ih]

/-! ## Batch delivery -/

theorem capture_batch_eq_trace (send : Transport) (api_key : String) (events : List Event) :
    capture_batch send api_key events = (capture_batch_trace send api_key events).2 := by
  induction events with
  | nil => rfl
  | cons e rest ih =>
    rw [capture_batch, capture_batch_trace]
    cases capture send api_key e with
    | error err => rfl
    | ok u => simpa using ih

theorem capture_batch_trace_ok (send : Transport) (api_key : String) (events : List Event)
    (h : ∀ e ∈ events, capture send api_key e = .ok ()) :
    capture_batch_trace send api_key events = (events, .ok ()) := by
  induction events with
  | nil => rfl
  | cons e rest ih =>
    rw [capture_batch_trace]
    rw [h e (List.mem_cons_self e rest)]
    rw [ih (fun a ha => h a (List.mem_cons_of_mem e ha))]

theorem capture_batch_trace_fail (send : Transport) (api_key : String) (e : Event)
    (err : String) (he : capture send api_key e = .error err) :
    ∀ (pre post : List Event), (∀ a ∈ pre, capture send api_key a = .ok ()) →
      capture_batch_trace send api_key (pre ++ e :: post) = (pre ++ [e], .error err) := by
  intro pre
  induction pre with
  | nil =>
    intro post _
    rw [List.nil_append, capture_batch_trace, he, List.nil_append]
  | cons a rest ih =>
    intro post hpre
    rw [List.cons_append, capture_batch_trace]
    rw [hpre a (List.mem_cons_self a rest)]
    rw [ih post (fun b hb => hpre b (List.mem_cons_of_mem a hb))]
    rfl

/-! ## JSON round trip -/

theorem parsePropFields_map (props : List (String × String)) :
    parsePropFields (props.map (fun p => (p.1, Json.str p.2))) = some props := by
  induction props with
  | nil => rfl
  | cons p rest ih =>
    rw [List.map_cons, parsePropFields]
    rw [ih]
    rfl

theorem parseProps_propsToJson (props : List (String × String)) :
    parseProps (propsToJson props) = some props := by
  rw [propsToJson, parseProps]
  exact parsePropFields_map props

theorem parseProperties_propertiesToJson (p : Properties) :
    parseProperties (propertiesToJson p) = some p := by
  simp [parseProperties, propertiesToJson, jsonField, parseProps_propsToJson]

theorem parseInnerEvent_roundTrip (e : Event) (api_key : String) :
    parseInnerEvent (innerEventToJson (InnerEvent.new e api_key))
      = some (api_key, e) := by
  cases e with
  | mk name props ts =>
    cases ts with
    | some t =>
      simp [InnerEvent.new, innerEventToJson, parseInnerEvent, jsonField,
        parseProperties, propertiesToJson, parseProps_propsToJson]
    | none =>
      simp [InnerEvent.new, innerEventToJson, parseInnerEvent, jsonField,
        parseProperties, propertiesToJson, parseProps_propsToJson]

/-! ## Claim theorems -/

/-- C1: `capture_batch` sends its events one at a time, in the given
order, via `capture`.  If every send succeeds, every event is sent
exactly once (the trace is the whole list, in order) and `Ok(())` is
returned.  If the events split as `pre ++ e :: post` with every event of
`pre` succeeding and `e` failing, then exactly the events of `pre`
followed by `e` are sent, once each and in order, `e`'s error is
returned, and no event after `e` is sent. -/
theorem capture_batch_spec (send : Transport) (api_key : String) (events : List Event) :
    ((∀ a ∈ events, capture send api_key a = .ok ()) →
      capture_batch_trace send api_key events = (events, .ok ()) ∧
      capture_batch send api_key events = .ok ()) ∧
    (∀ (pre post : List Event) (e : Event) (err : String),
      events = pre ++ e :: post →
      (∀ a ∈ pre, capture send api_key a = .ok ()) →
      capture send api_key e = .error err →
      capture_batch_trace send api_key events = (pre ++ [e], .error err) ∧
      capture_batch send api_key events = .error err) := by
  constructor
  · intro h
    have ht := capture_batch_trace_ok send api_key events h
    exact ⟨ht, by rw [capture_batch_eq_trace, ht]⟩
  · intro pre post e err hev hpre he
    subst hev
    have ht := capture_batch_trace_fail send api_key e err he pre post hpre
    exact ⟨ht, by rw [capture_batch_eq_trace, ht]⟩

/-- An event with a given name, empty property map and no timestamp,
used to instantiate the theorems on concrete inputs. -/
def wEvent (name : String) : Event :=
  { event := name
    properties := { distinct_id := "machine", props := [] }
    timestamp := none }

/-- A transport oracle that fails exactly on the payload whose `event`
field is the string `"b"`. -/
def wSendFailB : Transport := fun j =>
  match j with
  | .obj (_ :: ("event", .str "b") :: _) => .error "boom"
  | _ => .ok { status := 200, body := "" }

theorem capture_batch_spec_witness :
    capture_batch_trace wSendFailB "key" [wEvent "a", wEvent "b", wEvent "c"]
        = ([wEvent "a", wEvent "b"], .error "boom") ∧
    capture_batch wSendFailB "key" [wEvent "a", wEvent "b", wEvent "c"] = .error "boom" := by
  have h := (capture_batch_spec wSendFailB "key" [wEvent "a", wEvent "b", wEvent "c"]).2
    [wEvent "a"] [wEvent "c"] (wEvent "b") "boom" rfl
    (by intro a ha; rw [List.mem_singleton.mp ha]; rfl) rfl
  exact ⟨h.1, h.2⟩

/-- C7: every transport-level failure of the underlying send (connection,
timeout) surfaces as an error carrying the underlying cause message, and
`capture` returns `Ok(())` exactly when the request was issued without
transport-level failure.  (Serialization of the payload is total for
this payload type, so it can never contribute a failure.) -/
theorem capture_surfaces_transport_errors (send : Transport) (api_key : String) (event : Event) :
    (∀ msg, send (innerEventToJson (InnerEvent.new event api_key)) = .error msg →
      capture send api_key event = .error msg) ∧
    (∀ r, send (innerEventToJson (InnerEvent.new event api_key)) = .ok r →
      capture send api_key event = .ok ()) := by
  constructor
  · intro msg h
    simp [capture, h]
  · intro r h
    simp [capture, h]

/-- A transport oracle that always fails with a timeout message. -/
def wSendTimeout : Transport := fun _ => .error "operation timed out"

theorem capture_surfaces_transport_errors_witness :
    capture wSendTimeout "key" (wEvent "a") = .error "operation timed out" :=
  (capture_surfaces_transport_errors wSendTimeout "key" (wEvent "a")).1
    "operation timed out" rfl

/-- C8: `capture` never turns a non-success HTTP status into an error:
the response status is not inspected and the body is discarded, so
whenever the POST completes at the transport level — whatever the status
code — `capture` returns `Ok(())`. -/
theorem capture_ignores_status (send : Transport) (api_key : String) (event : Event)
    (status : Nat) (body : String)
    (h : send (innerEventToJson (InnerEvent.new event api_key))
      = .ok { status := status, body := body }) :
    capture send api_key event = .ok () := by
  simp [capture, h]

/-- A transport oracle whose requests complete with HTTP status 503. -/
def wSend503 : Transport := fun _ => .ok { status := 503, body := "service unavailable" }

theorem capture_ignores_status_witness :
    capture wSend503 "key" (wEvent "a") = .ok () :=
  capture_ignores_status wSend503 "key" (wEvent "a") 503 "service unavailable" rfl

/-- C10: two `capture_command` calls that agree on everything except the
optional `execution_time_in_millis` measurement behave identically: the
elapsed time is accepted but never reaches the constructed event or the
payload. -/
theorem capture_command_ignores_execution_time (send : Transport) (api_key : String)
    (machine_uid : Except String String) (now : String) (config : Config)
    (sub_command : SubCommand) (args : List String) (tagOrder : List String)
    (t1 t2 : Option Nat) :
    capture_command send api_key machine_uid now config sub_command args t1 tagOrder =
      capture_command send api_key machine_uid now config sub_command args t2 tagOrder :=
  rfl

/-- C2: whenever the data-source configuration is present and its
connection URI resolves, `capture_command`'s property map classifies the
source under the key `"database"` totally and deterministically: the
classification is the function `databaseName`, which maps a Postgres
variant to `"postgresql"`, a Mysql variant to `"mysql"` and a MongoDB
variant to `"mongodb"`, and its value is always one of those three
strings (no panic, no unmapped variant). -/
theorem capture_command_database (config : Config) (x : SourceConfig) (uri : ConnectionUri)
    (args tagOrder : List String)
    (hsrc : config.source = some x) (huri : x.connection_uri = .ok uri) :
    ∃ props, buildProps config args tagOrder = .ok props ∧
      lookupProp props "database" = some (databaseName uri) ∧
      (databaseName uri = "postgresql" ∨ databaseName uri = "mysql" ∨
        databaseName uri = "mongodb") ∧
      (∀ a b c d e, databaseName (.Postgres a b c d e) = "postgresql") ∧
      (∀ a b c d e, databaseName (.Mysql a b c d e) = "mysql") ∧
      (∀ a b c d e f, databaseName (.MongoDB a b c d e f) = "mongodb") := by
  refine ⟨(tagOrder.enum).foldl addTagProp (sourceProps x uri args), ?_, ?_, ?_,
    fun a b c d e => rfl, fun a b c d e => rfl, fun a b c d e f => rfl⟩
  · simp [buildProps, hsrc, huri]
  · have hne : ∀ it ∈ tagOrder.enum, transformerKey it.1 ≠ "database" :=
      fun it _ => transformerKey_ne it.1 "database" (by decide)
    rw [lookup_fold_addTagProp_ne _ _ _ hne, lookup_sourceProps_database]
  · cases uri
    · exact Or.inl rfl
    · exact Or.inr (Or.inl rfl)
    · exact Or.inr (Or.inr rfl)

/-- A data-source configuration with a resolved Postgres URI and no
options set, for concrete instantiation. -/
def wX2 : SourceConfig :=
  { connection_uri := .ok (.Postgres "host" "5432" "user" "pass" "db")
    compression := none
    encryption_key := none
    skip := none
    database_subset := none
    transformers := [] }

/-- A configuration carrying `wX2` as its data source. -/
def wCfg2 : Config := { source := some wX2 }

theorem capture_command_database_witness :
    ∃ props, buildProps wCfg2 [] [] = .ok props ∧
      lookupProp props "database"
        = some (databaseName (.Postgres "host" "5432" "user" "pass" "db")) ∧
      (databaseName (ConnectionUri.Postgres "host" "5432" "user" "pass" "db") = "postgresql" ∨
        databaseName (.Postgres "host" "5432" "user" "pass" "db") = "mysql" ∨
        databaseName (.Postgres "host" "5432" "user" "pass" "db") = "mongodb") ∧
      (∀ a b c d e, databaseName (.Postgres a b c d e) = "postgresql") ∧
      (∀ a b c d e, databaseName (.Mysql a b c d e) = "mysql") ∧
      (∀ a b c d e f, databaseName (.MongoDB a b c d e f) = "mongodb") :=
  capture_command_database wCfg2 wX2 (.Postgres "host" "5432" "user" "pass" "db") [] [] rfl rfl

/-- C3: `capture_command`'s property map binds `"compression_used"` to
the string form of the compression option with default `true`: the value
is `"true"` when the option is unset, `"true"` when it is explicitly
`true`, and `"false"` when it is explicitly `false`. -/
theorem capture_command_compression (config : Config) (x : SourceConfig) (uri : ConnectionUri)
    (args tagOrder : List String)
    (hsrc : config.source = some x) (huri : x.connection_uri = .ok uri) :
    ∃ props, buildProps config args tagOrder = .ok props ∧
      lookupProp props "compression_used" = some (boolString (x.compression.getD true)) ∧
      (x.compression = none → lookupProp props "compression_used" = some "true") ∧
      (x.compression = some true → lookupProp props "compression_used" = some "true") ∧
      (x.compression = some false → lookupProp props "compression_used" = some "false") := by
  have hne : ∀ it ∈ tagOrder.enum, transformerKey it.1 ≠ "compression_used" :=
    fun it _ => transformerKey_ne it.1 "compression_used" (by decide)
  have hlook : lookupProp ((tagOrder.enum).foldl addTagProp (sourceProps x uri args))
      "compression_used" = some (boolString (x.compression.getD true)) := by
    rw [lookup_fold_addTagProp_ne _ _ _ hne, lookup_sourceProps_compression]
  refine ⟨(tagOrder.enum).foldl addTagProp (sourceProps x uri args), ?_, hlook, ?_, ?_, ?_⟩
  · simp [buildProps, hsrc, huri]
  · intro hc; rw [hlook, hc]; rfl
  · intro hc; rw [hlook, hc]; rfl
  · intro hc; rw [hlook, hc]; rfl

/-- A data-source configuration with compression explicitly disabled. -/
def wX3 : SourceConfig :=
  { connection_uri := .ok (.Mysql "host" "3306" "user" "pass" "db")
    compression := some false
    encryption_key := none
    skip := none
    database_subset := none
    transformers := [] }

/-- A configuration carrying `wX3` as its data source. -/
def wCfg3 : Config := { source := some wX3 }

theorem capture_command_compression_witness :
    ∃ props, buildProps wCfg3 [] [] = .ok props ∧
      lookupProp props "compression_used" = some (boolString (wX3.compression.getD true)) ∧
      (wX3.compression = none → lookupProp props "compression_used" = some "true") ∧
      (wX3.compression = some true → lookupProp props "compression_used" = some "true") ∧
      (wX3.compression = some false → lookupProp props "compression_used" = some "false") :=
  capture_command_compression wCfg3 wX3 (.Mysql "host" "3306" "user" "pass" "db") [] [] rfl rfl

/-- C5: when the configuration has no data source, the property map of
the event built by `capture_command` is exactly the single binding of
`"args"` to the argument list joined by single spaces — no database,
compression, encryption, skip, subset or transformer key exists. -/
theorem capture_command_no_source (config : Config) (sub_command : SubCommand)
    (args : List String) (machine_uid : Except String String) (now : String)
    (tagOrder : List String) (hsrc : config.source = none) :
    buildProps config args tagOrder = .ok [("args", String.intercalate " " args)] ∧
    ∃ ev, buildEvent config sub_command args machine_uid now tagOrder = .ok ev ∧
      ev.properties.props = [("args", String.intercalate " " args)] := by
  have hb : buildProps config args tagOrder
      = .ok [("args", String.intercalate " " args)] := by
    simp [buildProps, hsrc, insertProp]
  refine ⟨hb, ?_⟩
  refine ⟨{ event := eventNameOf sub_command
            properties :=
              { distinct_id := match machine_uid with | .ok i => i | .error _ => "unknown"
                props := [("args", String.intercalate " " args)] }
            timestamp := some now }, ?_, rfl⟩
  simp [buildEvent, hb]

/-- A configuration with no data source. -/
def wCfgNone : Config := { source := none }

theorem capture_command_no_source_witness :
    buildProps wCfgNone ["backup", "run"] [] = .ok [("args", String.intercalate " " ["backup", "run"])] ∧
    ∃ ev, buildEvent wCfgNone (.Backup (.Run "run")) ["backup", "run"] (.ok "machine") "2022-05-04T12:00:00" []
        = .ok ev ∧
      ev.properties.props = [("args", String.intercalate " " ["backup", "run"])] :=
  capture_command_no_source wCfgNone (.Backup (.Run "run")) ["backup", "run"]
    (.ok "machine") "2022-05-04T12:00:00" [] rfl

/-- C9: a failed machine-unique-id lookup never fails `capture_command`:
the built event's `distinct_id` falls back to the literal `"unknown"`,
and the command still proceeds to `capture` the event; when the lookup
succeeds, `distinct_id` is the returned machine identifier. -/
theorem capture_command_machine_uid_fallback (send : Transport) (api_key : String)
    (machine_uid : Except String String) (now : String) (config : Config)
    (sub_command : SubCommand) (args : List String) (exec : Option Nat)
    (tagOrder : List String)
    (hsrc : config.source = none ∨
      ∃ x uri, config.source = some x ∧ x.connection_uri = Except.ok uri) :
    ∃ ev, buildEvent config sub_command args machine_uid now tagOrder = .ok ev ∧
      (∀ m, machine_uid = .error m → ev.properties.distinct_id = "unknown") ∧
      (∀ i, machine_uid = .ok i → ev.properties.distinct_id = i) ∧
      capture_command send api_key machine_uid now config sub_command args exec tagOrder
        = capture send api_key ev := by
  have hprops : ∃ props, buildProps config args tagOrder = .ok props := by
    rcases hsrc with h | ⟨x, uri, hx, hu⟩
    · exact ⟨insertProp [] "args" (String.intercalate " " args), by simp [buildProps, h]⟩
    · exact ⟨(tagOrder.enum).foldl addTagProp (sourceProps x uri args),
        by simp [buildProps, hx, hu]⟩
  obtain ⟨props, hp⟩ := hprops
  refine ⟨{ event := eventNameOf sub_command
            properties :=
              { distinct_id := match machine_uid with | .ok i => i | .error _ => "unknown"
                props := props }
            timestamp := some now }, ?_, ?_, ?_, ?_⟩
  · simp [buildEvent, hp]
  · intro m hm
    rw [hm]
  · intro i hi
    rw [hi]
  · simp [capture_command, buildEvent, hp]

theorem capture_command_machine_uid_fallback_witness :
    ∃ ev, buildEvent wCfgNone (.Transformer .List) ["transformer", "list"]
        (.error "machine id lookup failed") "2022-05-04T12:00:00" [] = .ok ev ∧
      (∀ m, (Except.error "machine id lookup failed" : Except String String) = .error m →
        ev.properties.distinct_id = "unknown") ∧
      (∀ i, (Except.error "machine id lookup failed" : Except String String) = .ok i →
        ev.properties.distinct_id = i) ∧
      capture_command wSend503 "key" (.error "machine id lookup failed") "2022-05-04T12:00:00"
          wCfgNone (.Transformer .List) ["transformer", "list"] (some 1500) []
        = capture wSend503 "key" ev :=
  capture_command_machine_uid_fallback wSend503 "key" (.error "machine id lookup failed")
    "2022-05-04T12:00:00" wCfgNone (.Transformer .List) ["transformer", "list"] (some 1500) []
    (Or.inl rfl)

/-- C4: for any configured multiset of column transformers, the
`transformer_<i>` entries of `capture_command`'s property map hold
exactly one entry per distinct transformer tag occurring across all
configured columns (duplicates collapse, parameterized variants collapse
to their base tag), for every possible iteration order of the tag set:
the indexed lookups enumerate `tagOrder` exactly, their values are a
permutation of the distinct-tag set, and each distinct tag occurs
exactly once among them. -/
theorem capture_command_transformer_tags (config : Config) (x : SourceConfig)
    (uri : ConnectionUri) (args tagOrder : List String)
    (hsrc : config.source = some x) (huri : x.connection_uri = .ok uri)
    (hperm : tagOrder.Perm (collectTags x)) :
    ∃ props, buildProps config args tagOrder = .ok props ∧
      (∀ j, lookupProp props (transformerKey j) = tagOrder.get? j) ∧
      ((List.range tagOrder.length).filterMap
          (fun j => lookupProp props (transformerKey j))).Perm (collectTags x) ∧
      (∀ tag, tag ∈ collectTags x ↔
        ∃ t ∈ x.transformers, ∃ c ∈ t.columns, tag = tagOf c.transformer) ∧
      (∀ tag ∈ collectTags x,
        ((List.range tagOrder.length).filterMap
          (fun j => lookupProp props (transformerKey j))).count tag = 1) := by
  have hlook : ∀ j,
      lookupProp ((tagOrder.enum).foldl addTagProp (sourceProps x uri args))
        (transformerKey j) = tagOrder.get? j := by
    intro j
    have h0 : tagOrder.enum = List.enumFrom 0 tagOrder := rfl
    have hfold := lookup_fold_enumFrom tagOrder 0 j (sourceProps x uri args)
    rw [Nat.zero_add] at hfold
    rw [h0, hfold, lookup_sourceProps_transformerKey]
    cases hg : tagOrder.get? j <;> simp
  have hfm : (List.range tagOrder.length).filterMap
      (fun j => lookupProp ((tagOrder.enum).foldl addTagProp (sourceProps x uri args))
        (transformerKey j)) = tagOrder := by
    have hfun : (fun j => lookupProp ((tagOrder.enum).foldl addTagProp (sourceProps x uri args))
        (transformerKey j)) = fun j => tagOrder.get? j := funext hlook
    rw [hfun]
    exact filterMap_get_range tagOrder
  refine ⟨(tagOrder.enum).foldl addTagProp (sourceProps x uri args),
    by simp [buildProps, hsrc, huri], hlook, ?_, fun tag => mem_collectTags x tag, ?_⟩
  · rw [hfm]
    exact hperm
  · intro tag htag
    rw [hfm, hperm.count_eq, List.count_eq_one_of_mem (nodup_collectTags x) htag]

/-- A data-source configuration with three configured columns whose tags
are email, email and random: two distinct tags. -/
def wX4 : SourceConfig :=
  { connection_uri := .ok (.MongoDB "host" "27017" "user" "pass" "db" "auth")
    compression := none
    encryption_key := none
    skip := none
    database_subset := none
    transformers :=
      [ { columns := [ { transformer := .Email }, { transformer := .Email } ] },
        { columns := [ { transformer := .Random } ] } ] }

/-- A configuration carrying `wX4` as its data source. -/
def wCfg4 : Config := { source := some wX4 }

theorem capture_command_transformer_tags_witness :
    ∃ props, buildProps wCfg4 [] ["random", "email"] = .ok props ∧
      (∀ j, lookupProp props (transformerKey j) = ["random", "email"].get? j) ∧
      ((List.range (["random", "email"] : List String).length).filterMap
          (fun j => lookupProp props (transformerKey j))).Perm (collectTags wX4) ∧
      (∀ tag, tag ∈ collectTags wX4 ↔
        ∃ t ∈ wX4.transformers, ∃ c ∈ t.columns, tag = tagOf c.transformer) ∧
      (∀ tag ∈ collectTags wX4,
        ((List.range (["random", "email"] : List String).length).filterMap
          (fun j => lookupProp props (transformerKey j))).count tag = 1) :=
  capture_command_transformer_tags wCfg4 wX4 (.MongoDB "host" "27017" "user" "pass" "db" "auth")
    [] ["random", "email"] rfl rfl (by decide)

/-- C6: wrapping an `Event` into the wire form with a given write key and
parsing the resulting JSON back recovers the write key together with the
original event — its name, its properties (distinct id and props map)
and its timestamp; injecting `api_key` is additive and destroys no field
of the original event. -/
theorem wire_round_trip (e : Event) (api_key : String) :
    parseInnerEvent (innerEventToJson (InnerEvent.new e api_key)) = some (api_key, e) ∧
    (InnerEvent.new e api_key).api_key = api_key ∧
    (InnerEvent.new e api_key).event = e.event ∧
    (InnerEvent.new e api_key).properties = e.properties ∧
    (InnerEvent.new e api_key).timestamp = e.timestamp :=
  ⟨parseInnerEvent_roundTrip e api_key, rfl, rfl, rfl, rfl⟩

end Telemetry
